import Mathlib

/-!
Verification of the SENG533 LLM benchmarking utilities (tester.py,
formatted_reply.py, analyzer.py) against their specification.

Shallow embedding conventions:
* Python floats are modelled by `ℚ`.  The two operations on floats that are
  not exact rational functions — `math.sqrt` and the `"%.2f"` string
  formatting used for the confidence-interval rendering — are passed in as
  abstract parameters (`sqrtQ : ℚ → ℚ`, `fmt : ℚ → String`); every theorem
  below is proved for an arbitrary choice of these parameters, so nothing
  depends on their numerical behaviour.
* Python dicts are modelled by association lists in insertion order, which
  is how `dict.items()` iterates.
* Fallible code paths (uncaught exceptions) are modelled with `Option`.
-/

namespace SENG533

/-! ### formatted_reply.py -/

/-- The reply object produced by the ollama client, as consumed by
`FormattedReply.decompose_ollama_reply`: completion flag and reason,
nanosecond-resolution durations, and the generated text. -/
structure OllamaReply where
  done : Bool
  done_reason : String
  total_duration : ℚ
  prompt_eval_duration : ℚ
  load_duration : ℚ
  response : String

/-- The flat record produced by `FormattedReply.__init__` /
`decompose_ollama_reply` (formatted_reply.py lines 1-44). -/
structure FormattedReply where
  done_reason : String
  done : Bool
  duration : ℚ
  eval_duration : ℚ
  response : String
  model : String
  query : String
  load_duration : ℚ

/-- `FormattedReply.__init__` (formatted_reply.py lines 2-22): the default
field values of a freshly constructed instance. -/
def FormattedReply.init : FormattedReply where
  done_reason := "unknown"
  done := false
  duration := -1
  eval_duration := -1
  response := "NO RESPONSE"
  model := ""
  query := ""
  load_duration := -1

/-- `FormattedReply.decompose_ollama_reply` (formatted_reply.py lines 24-44).
Note that `duration` and `eval_duration` are divided by 1e9 while
`load_duration` and `response` are copied verbatim. -/
def decompose_ollama_reply (reply : OllamaReply) : FormattedReply :=
  { FormattedReply.init with
    done := reply.done
    done_reason := reply.done_reason
    duration := reply.total_duration / 1000000000
    eval_duration := reply.prompt_eval_duration / 1000000000
    response := reply.response
    load_duration := reply.load_duration }

/-- The stub endpoint reply used in the spec's end-to-end scenario. -/
def stubReply : OllamaReply where
  done := true
  done_reason := "stop"
  total_duration := 2000000000
  prompt_eval_duration := 500000000
  load_duration := 100000000
  response := "ok"

/-- A reply whose generated text contains the character the normalizer's
documentation says is removed. -/
def slashReply : OllamaReply where
  done := true
  done_reason := "stop"
  total_duration := 1000000000
  prompt_eval_duration := 1000000000
  load_duration := 1000000000
  response := "a/b"

/-! ### tester.py -/

/-- One `{cpu, mem, gpu}` utilization sample appended by
`measure_utilization` (tester.py lines 18-36). -/
structure Sample where
  cpu : ℚ
  mem : ℚ
  gpu : ℚ

/-- The average of one sampled quantity over a query's sampling window
(tester.py lines 177-182): mean of the samples, or 0 if no sample was
taken. -/
def avgOf (samples : List Sample) (f : Sample → ℚ) : ℚ :=
  if samples.isEmpty then 0 else (samples.map f).sum / samples.length

/-- The record dict appended to `model_results` (tester.py lines 185-196). -/
structure TRec where
  query : String
  response : String
  done : Bool
  done_reason : String
  duration : ℚ
  eval_duration : ℚ
  load_duration : ℚ
  avg_cpu : ℚ
  avg_mem : ℚ
  avg_gpu : ℚ

/-- Building one record from the normalized reply and the sampling window
(tester.py lines 177-196). -/
def mkQueryRecord (r : FormattedReply) (query : String) (samples : List Sample) : TRec where
  query := query
  response := r.response
  done := r.done
  done_reason := r.done_reason
  duration := r.duration
  eval_duration := r.eval_duration
  load_duration := r.load_duration
  avg_cpu := avgOf samples (fun s => s.cpu)
  avg_mem := avgOf samples (fun s => s.mem)
  avg_gpu := avgOf samples (fun s => s.gpu)

/-- Python's `l[:stop]` slice for an integer `stop`: a nonnegative stop takes
the first `stop` elements (clamped to the length); a negative stop counts
from the end, `l[:-k] = l[0 : len(l)-k]`, clamped below at 0. -/
def pySliceTo {α : Type} (l : List α) (stop : ℤ) : List α :=
  if 0 ≤ stop then l.take stop.toNat else l.take ((l.length : ℤ) + stop).toNat

/-- The `--max-queries` truncation in `main` (tester.py lines 139-140):
`if args.max_queries != -1 and args.max_queries < len(queries):
queries = queries[:args.max_queries]`. -/
def applyMaxQueries (maxQ : ℤ) (queries : List String) : List String :=
  if maxQ ≠ -1 ∧ maxQ < (queries.length : ℤ) then pySliceTo queries maxQ else queries

/-- The baseline entry `{cpu, mem, gpu}` recorded once per run
(tester.py lines 148-153). -/
structure Baseline where
  cpu : ℚ
  mem : ℚ
  gpu : ℚ

/-- The full `results` structure of one collector run: the baseline entry
plus, per 1-based iteration key (a string), a mapping from model name to the
ordered record list (tester.py lines 145-198).  Mappings are association
lists in dict insertion order. -/
structure RunResult where
  baseline : Baseline
  iterations : List (String × List (String × List TRec))

/-- The test loop of `main` (tester.py lines 156-198): for each iteration
(outer), model (middle) and query (inner), send the query to the endpoint,
normalize the reply and record it together with the sampling-window
averages.  The endpoint and the per-query sampling outcome are parameters;
model names are assumed distinct (they are dict keys in the source). -/
def runTest (models queries : List String) (iters : ℕ)
    (endpoint : String → String → OllamaReply)
    (sampler : ℕ → String → String → List Sample) (baseline : Baseline) :
    RunResult where
  baseline := baseline
  iterations :=
    (List.range' 1 iters).map (fun it =>
      (toString it, models.map (fun m =>
        (m, queries.map (fun q =>
          mkQueryRecord (decompose_ollama_reply (endpoint m q)) q
            (sampler it m q))))))

/-- `main` of tester.py (lines 114-198), restricted to its pure data flow:
read models and queries, apply the `--max-queries` truncation, run the test
loop. -/
def tester_main (models queries : List String) (maxQ : ℤ) (iters : ℕ)
    (endpoint : String → String → OllamaReply)
    (sampler : ℕ → String → String → List Sample) (baseline : Baseline) :
    RunResult :=
  runTest models (applyMaxQueries maxQ queries) iters endpoint sampler baseline

/-! ### JSON values

The result file format (§6 of the spec) and the analyzer's loaded data are
JSON values; `json.dump` / `json.load` map faithfully between them and
Python dicts/lists/strings/numbers/booleans.  Objects are association lists
in insertion order. -/

/-- A JSON value. -/
inductive Json where
  | null : Json
  | bool : Bool → Json
  | num : ℚ → Json
  | str : String → Json
  | arr : List Json → Json
  | obj : List (String × Json) → Json

/-- Python truthiness of a JSON-derived value (`if not results:`): `None`,
`False`, `0`, `""`, `[]` and the empty dict are falsy. -/
def jsonFalsy : Json → Bool
  | Json.null => true
  | Json.bool b => !b
  | Json.num q => q == 0
  | Json.str s => s == ""
  | Json.arr l => l.isEmpty
  | Json.obj l => l.isEmpty

/-! ### analyzer.py — statistics engine

A loaded query record is a JSON object.  `compute_stats` touches only its
six numeric metric fields and its `done` field, so a record is modelled by
those projections: the association list of numeric fields that are present,
and the `done` boolean when present (the collector always writes numbers
for the metric keys and a boolean for `done`). -/

/-- A loaded query record as seen by `compute_stats`: the numeric fields
present in the record's dict, plus the `done` field when present. -/
structure ARec where
  nums : List (String × ℚ)
  done : Option Bool

/-- The tracked metrics (analyzer.py line 72). -/
def metricsList : List String :=
  ["duration", "eval_duration", "load_duration", "avg_cpu", "avg_mem", "avg_gpu"]

/-- `[record.get(metric, 0) for record in records if metric in record]`
(analyzer.py line 77): the metric's value from each record that contains
the key. -/
def metricValues (records : List ARec) (metric : String) : List ℚ :=
  records.filterMap (fun r => r.nums.lookup metric)

/-- `statistics.mean`. -/
def pymean (l : List ℚ) : ℚ := l.sum / l.length

/-- `statistics.median`: sort, then take the middle element (odd length) or
the average of the two middle elements (even length).  Only ever applied to
a nonempty list, as in the source. -/
def pymedian (l : List ℚ) : ℚ :=
  if l.length % 2 = 1 then (l.insertionSort (· ≤ ·)).getD (l.length / 2) 0
  else
    ((l.insertionSort (· ≤ ·)).getD (l.length / 2 - 1) 0 +
      (l.insertionSort (· ≤ ·)).getD (l.length / 2) 0) / 2

/-- The sample variance with Bessel's correction, as used by
`statistics.stdev`: sum of squared deviations from the mean over `n - 1`. -/
def sampleVariance (l : List ℚ) : ℚ :=
  (l.map (fun x => (x - pymean l) ^ 2)).sum / ((l.length : ℚ) - 1)

/-- `statistics.stdev`, parametrized by the square-root function on
floats. -/
def pystdev (sqrtQ : ℚ → ℚ) (l : List ℚ) : ℚ := sqrtQ (sampleVariance l)

/-- The per-metric entry of the stats dict (analyzer.py lines 92-97). -/
structure MetricStat where
  mean : ℚ
  median : ℚ
  std : ℚ
  ci : String

/-- The stats dict returned by `compute_stats` for one model. -/
structure ModelStats where
  metricStats : List (String × MetricStat)
  failure_rate : ℚ
  count : ℕ

/-- The body of the per-metric loop of `compute_stats` (analyzer.py lines
76-97).  `n` is the total record count, `sqrtQ` models `math.sqrt` and
`fmt` models the `"%.2f"` float formatting of the f-string. -/
def computeMetricStat (sqrtQ : ℚ → ℚ) (fmt : ℚ → String)
    (records : List ARec) (n : ℕ) (metric : String) : MetricStat :=
  let values := metricValues records metric
  if values.isEmpty then
    { mean := 0, median := 0, std := 0, ci := "[0, 0]" }
  else
    let mean_val := pymean values
    let median_val := pymedian values
    let std_val := if 1 < values.length then pystdev sqrtQ values else 0
    let ci := if 1 < n then (196 / 100 : ℚ) * (std_val / sqrtQ n) else 0
    { mean := mean_val
      median := median_val
      std := std_val
      ci := "[" ++ fmt (mean_val - ci) ++ ", " ++ fmt (mean_val + ci) ++ "]" }

/-- `compute_stats` (analyzer.py lines 68-104): per-metric statistics, the
failure rate and the record count.  The `baseline` argument is accepted but
never read in the shipped revision. -/
def compute_stats (sqrtQ : ℚ → ℚ) (fmt : ℚ → String)
    (records : List ARec) (baseline : Json) : ModelStats where
  metricStats :=
    metricsList.map (fun m =>
      (m, computeMetricStat sqrtQ fmt records records.length m))
  failure_rate :=
    if 0 < records.length then
      ((records.countP (fun r => !(r.done.getD true)) : ℚ) /
        (records.length : ℚ)) * 100
    else 0
  count := records.length

/-! ### analyzer.py — loading and grouping -/

/-- `load_results` (analyzer.py lines 8-18).  The argument is the parsed
content of the file, or `none` when the file is missing or malformed (the
`json.load` call raises).  Any exception inside the `try` — including the
`data.get` attribute access when the root is not an object — is caught and
yields the empty dict; otherwise the result is `data.get("results", {})`. -/
def load_results (file : Option Json) : Json :=
  match file with
  | some (Json.obj fields) => (fields.lookup "results").getD (Json.obj [])
  | _ => Json.obj []

/-- `grouped[model].extend(records)`, creating `grouped[model] = []` first
when the key is absent (analyzer.py lines 31-33); a fresh key is appended
at the end, in dict insertion order. -/
def extendAt (g : List (String × List Json)) (k : String) (rs : List Json) :
    List (String × List Json) :=
  match g with
  | [] => [(k, rs)]
  | (k', v) :: t => if k' = k then (k', v ++ rs) :: t else (k', v) :: extendAt t k rs

/-- The inner loop of `group_by_model` over one iteration's model dict
(analyzer.py lines 30-33).  A model's records must be a JSON array (the
source iterates them with `list.extend`); anything else is a crash,
modelled by `none`. -/
def groupModels (ms : List (String × Json)) (g : List (String × List Json)) :
    Option (List (String × List Json)) :=
  match ms with
  | [] => some g
  | (m, Json.arr rs) :: t => groupModels t (extendAt g m rs)
  | _ => none

/-- The outer loop of `group_by_model` (analyzer.py lines 24-33): skip the
`baseline` entry, iterate every other entry's model dict.  A non-object
iteration value is a crash (`value.items()` raises), modelled by `none`. -/
def groupEntries (results : List (String × Json))
    (g : List (String × List Json)) : Option (List (String × List Json)) :=
  match results with
  | [] => some g
  | (key, value) :: t =>
    if key = "baseline" then groupEntries t g
    else
      match value with
      | Json.obj ms => (groupModels ms g).bind (groupEntries t)
      | _ => none

/-- `group_by_model` (analyzer.py lines 20-34). -/
def group_by_model (results : List (String × Json)) :
    Option (List (String × List Json)) :=
  groupEntries results []

/-! ### Serialization of a RunResult to the result-file JSON shape -/

/-- The JSON encoding of the baseline entry. -/
def baselineJson (b : Baseline) : Json :=
  Json.obj [("cpu", Json.num b.cpu), ("mem", Json.num b.mem), ("gpu", Json.num b.gpu)]

/-- The JSON encoding of one query record (the dict of tester.py lines
185-196). -/
def encodeTRec (r : TRec) : Json :=
  Json.obj
    [("query", Json.str r.query), ("response", Json.str r.response),
     ("done", Json.bool r.done), ("done_reason", Json.str r.done_reason),
     ("duration", Json.num r.duration), ("eval_duration", Json.num r.eval_duration),
     ("load_duration", Json.num r.load_duration), ("avg_cpu", Json.num r.avg_cpu),
     ("avg_mem", Json.num r.avg_mem), ("avg_gpu", Json.num r.avg_gpu)]

/-- Reading one query record back from its JSON encoding. -/
def decodeTRec (j : Json) : Option TRec :=
  match j with
  | Json.obj f =>
    match f.lookup "query", f.lookup "response", f.lookup "done",
        f.lookup "done_reason", f.lookup "duration", f.lookup "eval_duration",
        f.lookup "load_duration", f.lookup "avg_cpu", f.lookup "avg_mem",
        f.lookup "avg_gpu" with
    | some (Json.str q), some (Json.str resp), some (Json.bool d),
        some (Json.str dr), some (Json.num du), some (Json.num ev),
        some (Json.num lo), some (Json.num ac), some (Json.num am),
        some (Json.num ag) =>
      some { query := q, response := resp, done := d, done_reason := dr,
             duration := du, eval_duration := ev, load_duration := lo,
             avg_cpu := ac, avg_mem := am, avg_gpu := ag }
    | _, _, _, _, _, _, _, _, _, _ => none
  | _ => none

/-- The entries of the `results` object written by the collector
(tester.py lines 145-198): the baseline entry first, then one entry per
iteration. -/
def resultsJson (rr : RunResult) : List (String × Json) :=
  ("baseline", baselineJson rr.baseline) ::
    rr.iterations.map (fun it =>
      (it.1, Json.obj (it.2.map (fun mr => (mr.1, Json.arr (mr.2.map encodeTRec))))))

/-- The whole result file `{"results": ...}` (tester.py line 207). -/
def dumpRunResult (rr : RunResult) : Json :=
  Json.obj [("results", Json.obj (resultsJson rr))]

/-- The entries of a JSON object (empty for any other value). -/
def objEntries : Json → List (String × Json)
  | Json.obj e => e
  | _ => []

/-- Modelled from the spec (§4.5 Result Grouper): the flattened per-model
record sequence — the concatenation, in iteration order, of the model's
within-iteration record lists. -/
def flattenModelRecords (rr : RunResult) (m : String) : List TRec :=
  rr.iterations.flatMap (fun it =>
    (it.2.filter (fun mr => mr.1 == m)).flatMap (fun mr => mr.2))

/-- Whether a model name occurs in some iteration of the run. -/
def modelAppears (rr : RunResult) (m : String) : Bool :=
  rr.iterations.any (fun it => it.2.any (fun mr => mr.1 == m))

/-! ### analyzer.py — main loop -/

/-- The numeric value of a JSON value, when it is a number. -/
def jsonNum : Json → Option ℚ
  | Json.num q => some q
  | _ => none

/-- Projecting a loaded record object to the view `compute_stats` uses: its
numeric fields and its `done` boolean.  A non-object record is a crash
downstream, modelled by `none`. -/
def jsonToARec (j : Json) : Option ARec :=
  match j with
  | Json.obj fields =>
    some
      { nums := fields.filterMap (fun kv => (jsonNum kv.2).map (fun q => (kv.1, q)))
        done :=
          match fields.lookup "done" with
          | some (Json.bool b) => some b
          | _ => none }
  | _ => none

/-- What the analyzer prints for one result file. -/
inductive Report where
  | skipped : Report
  | table : List (String × ModelStats) → Report

/-- The body of the per-file loop of `main` (analyzer.py lines 146-169):
load the file, skip it with a message when the loaded results are falsy,
otherwise read the baseline entry, group by model and compute per-model
stats.  `none` models an uncaught crash (never reached on well-formed
files). -/
def processFile (sqrtQ : ℚ → ℚ) (fmt : ℚ → String) (file : Option Json) :
    Option Report :=
  let results := load_results file
  if jsonFalsy results then some Report.skipped
  else
    match results with
    | Json.obj entries =>
      let baseline :=
        (entries.lookup "baseline").getD
          (Json.obj [("cpu", Json.num 0), ("mem", Json.num 0), ("gpu", Json.num 0)])
      (group_by_model entries).bind (fun grouped =>
        (grouped.mapM (fun (grec : String × List Json) =>
            (grec.2.mapM jsonToARec).map (fun recs =>
              (grec.1, compute_stats sqrtQ fmt recs baseline)))).map
          Report.table)
    | _ => none

/-- The per-file loop of `main` (analyzer.py lines 146-169), over the
discovered files' parsed contents in discovery order. -/
def analyzerMain (sqrtQ : ℚ → ℚ) (fmt : ℚ → String) (files : List (Option Json)) :
    List (Option Report) :=
  match files with
  | [] => []
  | f :: t => processFile sqrtQ fmt f :: analyzerMain sqrtQ fmt t

/-! ### Helpers for stating the claims -/

/-- The minimum of a list of rationals (0 for the empty list, which is
never used). -/
def listMin : List ℚ → ℚ
  | [] => 0
  | x :: xs => xs.foldl min x

/-- The maximum of a list of rationals (0 for the empty list, which is
never used). -/
def listMax : List ℚ → ℚ
  | [] => 0
  | x :: xs => xs.foldl max x

/-- The element list of a JSON array (empty for any other value), the
sequence `list.extend` iterates over. -/
def arrElems : Json → List Json
  | Json.arr rs => rs
  | _ => []

/-- Modelled from the spec (§4.5): the records one iteration's model dict
contributes for a given model. -/
def flatMs (ms : List (String × Json)) (m : String) : List Json :=
  (ms.filter (fun mr => mr.1 == m)).flatMap (fun mr => arrElems mr.2)

/-- Modelled from the spec (§4.5): the flattened record sequence for a
model over a results-object entry list, baseline entry excluded,
concatenated in entry order. -/
def flattenEntries (results : List (String × Json)) (m : String) : List Json :=
  results.flatMap (fun e =>
    if e.1 = "baseline" then []
    else
      match e.2 with
      | Json.obj ms => flatMs ms m
      | _ => [])

/-- Whether a model key occurs in some non-baseline entry. -/
def appearsEntries (results : List (String × Json)) (m : String) : Bool :=
  results.any (fun e =>
    !(e.1 == "baseline") &&
      (match e.2 with
       | Json.obj ms => ms.any (fun mr => mr.1 == m)
       | _ => false))

/-- Well-formedness of a results-object entry list as the grouper requires
it: every non-baseline entry is an object whose values are arrays. -/
def wfEntries (results : List (String × Json)) : Prop :=
  ∀ e ∈ results,
    e.1 = "baseline" ∨
      ∃ ms, e.2 = Json.obj ms ∧ ∀ mr ∈ ms, ∃ rs, mr.2 = Json.arr rs

/-- A concrete two-record input used by the statistics witnesses. -/
def wrecords : List ARec :=
  [{ nums := [("duration", 3)], done := some true },
   { nums := [("duration", 5)], done := some true }]

/-- A concrete one-iteration, one-model, one-record run used by the
round-trip witness. -/
def wrun : RunResult where
  baseline := { cpu := 1, mem := 2, gpu := 0 }
  iterations :=
    [("1", [("m1", [{ query := "hello", response := "ok", done := true,
                      done_reason := "stop", duration := 2, eval_duration := 1 / 2,
                      load_duration := 100000000, avg_cpu := 0, avg_mem := 0,
                      avg_gpu := 0 }])])]

/-! ## Theorems -/

/-- Claim C2, counterexample: at the stub reply (whose `load_duration`
field is 100000000 ns), the normalizer does not set `load_duration` to the
reply field divided by 1e9 — it stores 100000000, not 0.1. -/
theorem claim_C2_counterexample :
    ¬ ((decompose_ollama_reply stubReply).load_duration =
        stubReply.load_duration / 1000000000) := by
  simp only [decompose_ollama_reply, stubReply]
  norm_num

/-- Claim C2 (amended): the normalizer sets `duration` and `eval_duration`
to the corresponding nanosecond-resolution reply fields divided by 1e9, but
copies `load_duration` through unconverted (raw nanoseconds); each of the
three fields is the sentinel -1 on a freshly initialized reply that was
never populated. -/
theorem claim_C2_durations (reply : OllamaReply) :
    (decompose_ollama_reply reply).duration = reply.total_duration / 1000000000 ∧
    (decompose_ollama_reply reply).eval_duration =
      reply.prompt_eval_duration / 1000000000 ∧
    (decompose_ollama_reply reply).load_duration = reply.load_duration ∧
    FormattedReply.init.duration = -1 ∧
    FormattedReply.init.eval_duration = -1 ∧
    FormattedReply.init.load_duration = -1 :=
  ⟨rfl, rfl, rfl, rfl, rfl, rfl⟩

/-- Claim C7: the shipped `compute_stats` never reads its baseline
argument, so its result is the same for any two baselines — no baseline
subtraction is applied to any metric. -/
theorem claim_C7_baseline_unused (sqrtQ : ℚ → ℚ) (fmt : ℚ → String)
    (records : List ARec) (b1 b2 : Json) :
    compute_stats sqrtQ fmt records b1 = compute_stats sqrtQ fmt records b2 :=
  rfl

/-- Claim C8: contrary to the normalizer's own documentation (which says
the stored response has '/' characters removed), the code copies the
generated text verbatim — on a reply whose text is "a/b" the stored
response is "a/b" and still contains '/'. -/
theorem claim_C8_slash_not_removed :
    (decompose_ollama_reply slashReply).response = "a/b" ∧
    ((decompose_ollama_reply slashReply).response.data.contains '/') = true :=
  ⟨rfl, by decide⟩

/-- Claim C10: the `--max-queries` truncation keeps all prompts for the
default -1 and for any bound at least the prompt count, takes the first N
prompts for N in [0, len), and for any other negative N silently drops the
last |N| prompts via Python negative slicing. -/
theorem claim_C10_max_queries (n : ℤ) (l : List String) :
    applyMaxQueries n l =
      if n = -1 ∨ (l.length : ℤ) ≤ n then l
      else if 0 ≤ n then l.take n.toNat
      else l.take (l.length - (-n).toNat) := by
  unfold applyMaxQueries pySliceTo
  by_cases h1 : n = -1
  · simp [h1]
  · by_cases h2 : (l.length : ℤ) ≤ n
    · simp [h1, h2, not_lt.mpr h2]
    · have hlt : n < (l.length : ℤ) := not_le.mp h2
      by_cases h3 : 0 ≤ n
      · simp [h1, h2, h3, hlt]
      · simp only [h1, h2, h3, hlt, ne_eq, not_false_iff, true_and, if_true,
          if_false, false_or, if_neg]
        congr 1
        omega

/-- Claim C5: in the end-to-end scenario (one model "m1", one query
"hello", two iterations, default `--max-queries`, a stub endpoint always
returning the fixed reply), the run result has exactly the iteration keys
"1" and "2", each mapping "m1" to exactly one record with duration 2.0,
eval_duration 0.5, unconverted load_duration 100000000, and done = true —
for every sampling outcome and baseline. -/
theorem claim_C5_end_to_end (sampler : ℕ → String → String → List Sample)
    (baseline : Baseline) :
    ∃ r1 r2 : TRec,
      (tester_main ["m1"] ["hello"] (-1) 2 (fun _ _ => stubReply) sampler
          baseline).iterations =
        [("1", [("m1", [r1])]), ("2", [("m1", [r2])])] ∧
      ∀ r ∈ [r1, r2],
        r.duration = 2 ∧ r.eval_duration = 1 / 2 ∧
        r.load_duration = 100000000 ∧ r.done = true := by
  refine
    ⟨mkQueryRecord (decompose_ollama_reply stubReply) "hello" (sampler 1 "m1" "hello"),
     mkQueryRecord (decompose_ollama_reply stubReply) "hello" (sampler 2 "m1" "hello"),
     ?_, ?_⟩
  · rfl
  · intro r hr
    have hfields :
        ∀ s, (mkQueryRecord (decompose_ollama_reply stubReply) "hello" s).duration = 2 ∧
          (mkQueryRecord (decompose_ollama_reply stubReply) "hello" s).eval_duration = 1 / 2 ∧
          (mkQueryRecord (decompose_ollama_reply stubReply) "hello" s).load_duration = 100000000 ∧
          (mkQueryRecord (decompose_ollama_reply stubReply) "hello" s).done = true := by
      intro s
      refine ⟨?_, ?_, rfl, rfl⟩ <;>
        simp [mkQueryRecord, decompose_ollama_reply, stubReply] <;> norm_num
    simp only [List.mem_cons, List.not_mem_nil, or_false] at hr
    rcases hr with h | h <;> exact h ▸ hfields _

/-- Witness for claim C5 at a concrete sampler and baseline. -/
theorem claim_C5_end_to_end_witness :
    ∃ r1 r2 : TRec,
      (tester_main ["m1"] ["hello"] (-1) 2 (fun _ _ => stubReply)
          (fun _ _ _ => []) { cpu := 0, mem := 0, gpu := 0 }).iterations =
        [("1", [("m1", [r1])]), ("2", [("m1", [r2])])] ∧
      ∀ r ∈ [r1, r2],
        r.duration = 2 ∧ r.eval_duration = 1 / 2 ∧
        r.load_duration = 100000000 ∧ r.done = true :=
  claim_C5_end_to_end (fun _ _ _ => []) { cpu := 0, mem := 0, gpu := 0 }

/-- A record is counted as a failure exactly when its `done` field is
present and false; a record lacking the key defaults to successful. -/
theorem done_default_eq (r : ARec) :
    (!(r.done.getD true)) = (r.done == some false) := by
  rcases r.done with _ | b
  · rfl
  · cases b <;> rfl

/-- Claim C4: the failure rate is `100 * failures / count` where a failure
is a record whose `done` field is present and false; it is 0 on the empty
list, always lies in [0, 100], is 0 when no record has `done == false`,
and a record lacking the `done` key counts as successful (same rate as
`done == true`). -/
theorem claim_C4_failure_rate (sqrtQ : ℚ → ℚ) (fmt : ℚ → String)
    (records : List ARec) (baseline : Json) (nums : List (String × ℚ)) :
    (records ≠ [] →
      (compute_stats sqrtQ fmt records baseline).failure_rate =
        100 * (records.countP (fun r => r.done == some false) : ℚ) /
          (records.length : ℚ)) ∧
    (records = [] → (compute_stats sqrtQ fmt records baseline).failure_rate = 0) ∧
    0 ≤ (compute_stats sqrtQ fmt records baseline).failure_rate ∧
    (compute_stats sqrtQ fmt records baseline).failure_rate ≤ 100 ∧
    ((∀ r ∈ records, ¬ r.done = some false) →
      (compute_stats sqrtQ fmt records baseline).failure_rate = 0) ∧
    (compute_stats sqrtQ fmt ({ nums := nums, done := none } :: records)
        baseline).failure_rate =
      (compute_stats sqrtQ fmt ({ nums := nums, done := some true } :: records)
        baseline).failure_rate := by
  have hfun : (fun r : ARec => !(r.done.getD true)) =
      (fun r : ARec => r.done == some false) := funext done_default_eq
  rcases eq_or_ne records [] with hnil | hne
  · subst hnil
    refine ⟨fun h => absurd rfl h, fun _ => rfl, le_refl _,
      by norm_num [compute_stats], fun _ => rfl, ?_⟩
    simp [compute_stats, List.countP_cons]
  · have hpos : 0 < records.length := List.length_pos.mpr hne
    have hposq : (0 : ℚ) < records.length := by exact_mod_cast hpos
    have hc : records.countP (fun r => r.done == some false) ≤ records.length :=
      List.countP_le_length _
    have hfr : (compute_stats sqrtQ fmt records baseline).failure_rate =
        ((records.countP (fun r => r.done == some false) : ℚ) /
          (records.length : ℚ)) * 100 := by
      simp only [compute_stats, hfun]
      rw [if_pos hpos]
    refine ⟨?_, fun h => absurd h hne, ?_, ?_, ?_, ?_⟩
    · intro _
      rw [hfr, div_mul_eq_mul_div, mul_comm]
    · rw [hfr]; positivity
    · rw [hfr]
      have h1 : (records.countP (fun r => r.done == some false) : ℚ) /
          (records.length : ℚ) ≤ 1 := by
        rw [div_le_one hposq]; exact_mod_cast hc
      have := mul_le_mul_of_nonneg_right h1 (by norm_num : (0 : ℚ) ≤ 100)
      simpa using this
    · intro hall
      rw [hfr]
      have h0 : records.countP (fun r => r.done == some false) = 0 := by
        rw [List.countP_eq_zero]
        intro a ha
        simpa using hall a ha
      rw [h0]
      simp
    · simp [compute_stats, List.countP_cons]

/-- Witness for claim C4 at a concrete one-record list with a failure. -/
theorem claim_C4_failure_rate_witness :
    (compute_stats id (fun _ => "") [{ nums := [], done := some false }]
        Json.null).failure_rate =
      100 * (([({ nums := [], done := some false } : ARec)].countP
          (fun r => r.done == some false) : ℚ)) /
        (([({ nums := [], done := some false } : ARec)].length : ℚ)) :=
  (claim_C4_failure_rate id (fun _ => "") [{ nums := [], done := some false }]
    Json.null []).1 (List.cons_ne_nil _ _)

/-- Looking up a key in a list that pairs each of a list of keys with its
image under a function. -/
theorem lookup_map_pair {α : Type} (f : String → α) :
    ∀ (L : List String) (k : String), k ∈ L →
      (L.map (fun m => (m, f m))).lookup k = some (f k) := by
  intro L
  induction L with
  | nil => intro k hk; cases hk
  | cons x xs ih =>
    intro k hk
    by_cases hx : k = x
    · subst hx; simp [List.lookup]
    · have hk' : k ∈ xs := by
        rcases List.mem_cons.mp hk with h | h
        · exact absurd h hx
        · exact h
      have hbeq : (k == x) = false := by simpa using hx
      simp only [List.map_cons, List.lookup, hbeq]
      exact ih k hk'

/-- Folding `min` over a list never exceeds the initial accumulator. -/
theorem foldl_min_le_init (xs : List ℚ) (a : ℚ) : xs.foldl min a ≤ a := by
  induction xs generalizing a with
  | nil => exact le_refl a
  | cons y ys ih => exact le_trans (ih (min a y)) (min_le_left a y)

/-- Folding `min` over a list never exceeds any member. -/
theorem foldl_min_le_mem : ∀ (xs : List ℚ) (a x : ℚ), x ∈ xs → xs.foldl min a ≤ x := by
  intro xs
  induction xs with
  | nil => intro a x h; cases h
  | cons y ys ih =>
    intro a x h
    rcases List.mem_cons.mp h with rfl | h'
    · exact le_trans (foldl_min_le_init ys (min a x)) (min_le_right a x)
    · exact ih (min a y) x h'

/-- `listMin` is a lower bound of the list. -/
theorem listMin_le_mem (l : List ℚ) (x : ℚ) (h : x ∈ l) : listMin l ≤ x := by
  match l, h with
  | y :: ys, h =>
    show ys.foldl min y ≤ x
    rcases List.mem_cons.mp h with rfl | h'
    · exact foldl_min_le_init ys x
    · exact foldl_min_le_mem ys y x h'

/-- Folding `max` over a list is at least the initial accumulator. -/
theorem init_le_foldl_max (xs : List ℚ) (a : ℚ) : a ≤ xs.foldl max a := by
  induction xs generalizing a with
  | nil => exact le_refl a
  | cons y ys ih => exact le_trans (le_max_left a y) (ih (max a y))

/-- Folding `max` over a list is at least any member. -/
theorem mem_le_foldl_max : ∀ (xs : List ℚ) (a x : ℚ), x ∈ xs → x ≤ xs.foldl max a := by
  intro xs
  induction xs with
  | nil => intro a x h; cases h
  | cons y ys ih =>
    intro a x h
    rcases List.mem_cons.mp h with rfl | h'
    · exact le_trans (le_max_right a x) (init_le_foldl_max ys (max a x))
    · exact ih (max a y) x h'

/-- `listMax` is an upper bound of the list. -/
theorem mem_le_listMax (l : List ℚ) (x : ℚ) (h : x ∈ l) : x ≤ listMax l := by
  match l, h with
  | y :: ys, h =>
    show x ≤ ys.foldl max y
    rcases List.mem_cons.mp h with rfl | h'
    · exact init_le_foldl_max ys x
    · exact mem_le_foldl_max ys y x h'

/-- The median of a nonempty list lies between its minimum and maximum. -/
theorem pymedian_bounds (l : List ℚ) (h : l ≠ []) :
    listMin l ≤ pymedian l ∧ pymedian l ≤ listMax l := by
  have hperm : List.Perm (l.insertionSort (· ≤ ·)) l := List.perm_insertionSort _ l
  have hlen : (l.insertionSort (· ≤ ·)).length = l.length := hperm.length_eq
  have hn : 0 < l.length := List.length_pos.mpr h
  have hmem : ∀ i, i < l.length → (l.insertionSort (· ≤ ·)).getD i 0 ∈ l := by
    intro i hi
    have hi' : i < (l.insertionSort (· ≤ ·)).length := by rw [hlen]; exact hi
    rw [List.getD_eq_getElem _ 0 hi']
    exact hperm.subset (List.getElem_mem hi')
  have h2 : l.length / 2 < l.length := Nat.div_lt_self hn (by norm_num)
  have h1 : l.length / 2 - 1 < l.length := lt_of_le_of_lt (Nat.sub_le _ _) h2
  unfold pymedian
  by_cases hodd : l.length % 2 = 1
  · rw [if_pos hodd]
    exact ⟨listMin_le_mem _ _ (hmem _ h2), mem_le_listMax _ _ (hmem _ h2)⟩
  · rw [if_neg hodd]
    have ha := hmem _ h1
    have hb := hmem _ h2
    constructor
    · have la := listMin_le_mem _ _ ha
      have lb := listMin_le_mem _ _ hb
      linarith
    · have ua := mem_le_listMax _ _ ha
      have ub := mem_le_listMax _ _ hb
      linarith

/-- The per-metric loop body on a metric with no values: everything is 0
and the interval string is the literal placeholder. -/
theorem computeMetricStat_of_nil (sqrtQ : ℚ → ℚ) (fmt : ℚ → String)
    (records : List ARec) (n : ℕ) (metric : String)
    (h : metricValues records metric = []) :
    computeMetricStat sqrtQ fmt records n metric =
      { mean := 0, median := 0, std := 0, ci := "[0, 0]" } := by
  unfold computeMetricStat
  rw [if_pos (by simp [h])]

/-- The per-metric loop body on a metric with at least one value. -/
theorem computeMetricStat_of_ne_nil (sqrtQ : ℚ → ℚ) (fmt : ℚ → String)
    (records : List ARec) (n : ℕ) (metric : String)
    (h : metricValues records metric ≠ []) :
    computeMetricStat sqrtQ fmt records n metric =
      { mean := pymean (metricValues records metric)
        median := pymedian (metricValues records metric)
        std :=
          if 1 < (metricValues records metric).length
          then pystdev sqrtQ (metricValues records metric) else 0
        ci :=
          "[" ++
            fmt (pymean (metricValues records metric) -
              (if 1 < n then
                196 / 100 *
                  ((if 1 < (metricValues records metric).length
                    then pystdev sqrtQ (metricValues records metric) else 0) /
                    sqrtQ n)
               else 0)) ++
            ", " ++
            fmt (pymean (metricValues records metric) +
              (if 1 < n then
                196 / 100 *
                  ((if 1 < (metricValues records metric).length
                    then pystdev sqrtQ (metricValues records metric) else 0) /
                    sqrtQ n)
               else 0)) ++ "]" } := by
  unfold computeMetricStat
  rw [if_neg (by simp [h])]

/-- Claim C1: whenever at least one record contains a metric key, the
reported confidence-interval string is the bracketed 2-decimal rendering of
`mean ± 1.96 * (std / sqrt n)` where `n` is the total record count for the
model (not the per-metric value count); when no record contains the key,
the string is exactly "[0, 0]" regardless of the other metrics. -/
theorem claim_C1_confidence_interval (sqrtQ : ℚ → ℚ) (fmt : ℚ → String)
    (records : List ARec) (baseline : Json) (metric : String)
    (hm : metric ∈ metricsList) :
    ∃ ms, (compute_stats sqrtQ fmt records baseline).metricStats.lookup metric =
        some ms ∧
      (metricValues records metric ≠ [] →
        ms.ci = "[" ++
          fmt (ms.mean - 196 / 100 * (ms.std / sqrtQ (records.length : ℚ))) ++
          ", " ++
          fmt (ms.mean + 196 / 100 * (ms.std / sqrtQ (records.length : ℚ))) ++
          "]") ∧
      (metricValues records metric = [] → ms.ci = "[0, 0]") := by
  refine ⟨computeMetricStat sqrtQ fmt records records.length metric,
    lookup_map_pair _ metricsList metric hm, ?_, ?_⟩
  · intro hne
    rw [computeMetricStat_of_ne_nil sqrtQ fmt records records.length metric hne]
    by_cases hn : 1 < records.length
    · show ("[" ++ _ ++ ", " ++ _ ++ "]" : String) = _
      rw [if_pos hn]
    · have hlen1 : (metricValues records metric).length ≤ records.length :=
        List.length_filterMap_le _ _
      have hpos : 0 < (metricValues records metric).length :=
        List.length_pos.mpr hne
      have hS : ¬ 1 < (metricValues records metric).length := by omega
      show ("[" ++ _ ++ ", " ++ _ ++ "]" : String) = _
      rw [if_neg hn, if_neg hS]
      simp
  · intro h0
    rw [computeMetricStat_of_nil sqrtQ fmt records records.length metric h0]

/-- Witness for claim C1 at a concrete metric and record list. -/
theorem claim_C1_confidence_interval_witness :
    ∃ ms, (compute_stats id (fun _ => "x") wrecords Json.null).metricStats.lookup
        "duration" = some ms ∧
      (metricValues wrecords "duration" ≠ [] →
        ms.ci = "[" ++
          (fun _ => "x") (ms.mean -
            196 / 100 * (ms.std / id (wrecords.length : ℚ))) ++
          ", " ++
          (fun _ => "x") (ms.mean +
            196 / 100 * (ms.std / id (wrecords.length : ℚ))) ++
          "]") ∧
      (metricValues wrecords "duration" = [] → ms.ci = "[0, 0]") :=
  claim_C1_confidence_interval id (fun _ => "x") wrecords Json.null "duration"
    (by decide)

/-- Claim C6: for a metric with at least one value the reported median lies
within the values' minimum and maximum; the reported standard deviation is
the sample (n-1) formula when there are at least 2 values and 0 for fewer
than 2 values. -/
theorem claim_C6_median_std (sqrtQ : ℚ → ℚ) (fmt : ℚ → String)
    (records : List ARec) (baseline : Json) (metric : String)
    (hm : metric ∈ metricsList) :
    ∃ ms, (compute_stats sqrtQ fmt records baseline).metricStats.lookup metric =
        some ms ∧
      (metricValues records metric ≠ [] →
        listMin (metricValues records metric) ≤ ms.median ∧
        ms.median ≤ listMax (metricValues records metric)) ∧
      (2 ≤ (metricValues records metric).length →
        ms.std = sqrtQ (((metricValues records metric).map (fun x =>
            (x - (metricValues records metric).sum /
              ((metricValues records metric).length : ℚ)) ^ 2)).sum /
          (((metricValues records metric).length : ℚ) - 1))) ∧
      ((metricValues records metric).length < 2 → ms.std = 0) := by
  refine ⟨computeMetricStat sqrtQ fmt records records.length metric,
    lookup_map_pair _ metricsList metric hm, ?_, ?_, ?_⟩
  · intro hne
    rw [computeMetricStat_of_ne_nil sqrtQ fmt records records.length metric hne]
    exact pymedian_bounds _ hne
  · intro h2
    have hne : metricValues records metric ≠ [] := by
      intro h0; rw [h0] at h2; simp at h2
    rw [computeMetricStat_of_ne_nil sqrtQ fmt records records.length metric hne]
    have h1 : 1 < (metricValues records metric).length := by omega
    show (if 1 < (metricValues records metric).length
        then pystdev sqrtQ (metricValues records metric) else 0) = _
    rw [if_pos h1]
    rfl
  · intro hlt
    rcases eq_or_ne (metricValues records metric) [] with h0 | hne
    · rw [computeMetricStat_of_nil sqrtQ fmt records records.length metric h0]
    · rw [computeMetricStat_of_ne_nil sqrtQ fmt records records.length metric hne]
      have h1 : ¬ 1 < (metricValues records metric).length := by omega
      show (if 1 < (metricValues records metric).length
          then pystdev sqrtQ (metricValues records metric) else 0) = 0
      rw [if_neg h1]

/-- Witness for claim C6 at a concrete metric and record list. -/
theorem claim_C6_median_std_witness :
    ∃ ms, (compute_stats id (fun _ => "x") wrecords Json.null).metricStats.lookup
        "duration" = some ms ∧
      (metricValues wrecords "duration" ≠ [] →
        listMin (metricValues wrecords "duration") ≤ ms.median ∧
        ms.median ≤ listMax (metricValues wrecords "duration")) ∧
      (2 ≤ (metricValues wrecords "duration").length →
        ms.std = id (((metricValues wrecords "duration").map (fun x =>
            (x - (metricValues wrecords "duration").sum /
              ((metricValues wrecords "duration").length : ℚ)) ^ 2)).sum /
          (((metricValues wrecords "duration").length : ℚ) - 1))) ∧
      ((metricValues wrecords "duration").length < 2 → ms.std = 0) :=
  claim_C6_median_std id (fun _ => "x") wrecords Json.null "duration" (by decide)

/-- Looking a key up after `extendAt`: the extended key maps to its old
value (empty when absent) with the new records appended; other keys are
untouched. -/
theorem lookup_extendAt :
    ∀ (g : List (String × List Json)) (k : String) (rs : List Json) (m : String),
      (extendAt g k rs).lookup m =
        if m = k then some (((g.lookup m).getD []) ++ rs) else g.lookup m := by
  intro g k rs
  induction g with
  | nil =>
    intro m
    by_cases h : m = k
    · subst h; simp [extendAt, List.lookup]
    · have hb : (m == k) = false := by simpa using h
      simp [extendAt, List.lookup, hb, h]
  | cons p t ih =>
    intro m
    obtain ⟨k', v⟩ := p
    by_cases h1 : k' = k
    · subst h1
      simp only [extendAt, if_pos rfl]
      by_cases h2 : m = k'
      · subst h2
        simp [List.lookup]
      · have hb : (m == k') = false := by simpa using h2
        simp [List.lookup, hb, h2]
    · simp only [extendAt, if_neg h1]
      by_cases h2 : m = k'
      · subst h2
        simp [List.lookup, h1]
      · have hb : (m == k') = false := by simpa using h2
        simp [List.lookup, hb, ih m]

/-- One model dict entry's contribution to the flattened sequence. -/
theorem flatMs_cons_eq (m0 : String) (j : Json) (t : List (String × Json))
    (m : String) :
    flatMs ((m0, j) :: t) m =
      (if m0 == m then arrElems j else []) ++ flatMs t m := by
  by_cases h : (m0 == m) = true
  · simp [flatMs, List.filter_cons, h]
  · simp only [Bool.not_eq_true] at h
    simp [flatMs, List.filter_cons, h]

/-- The inner grouping loop: it succeeds on well-formed model dicts and
its result looks up, per model, the accumulator's old records followed by
this dict's contribution. -/
theorem groupModels_spec :
    ∀ (ms : List (String × Json)) (g : List (String × List Json)),
      (∀ mr ∈ ms, ∃ rs, mr.2 = Json.arr rs) →
      ∃ G, groupModels ms g = some G ∧
        ∀ m, G.lookup m =
          (match g.lookup m with
           | some v => some (v ++ flatMs ms m)
           | none =>
             if ms.any (fun mr => mr.1 == m) then some (flatMs ms m) else none) := by
  intro ms
  induction ms with
  | nil =>
    intro g _
    refine ⟨g, rfl, fun m => ?_⟩
    rcases hg : g.lookup m with _ | v <;> simp [hg, flatMs]
  | cons p t ih =>
    intro g hwf
    obtain ⟨m0, j⟩ := p
    obtain ⟨rs, hj⟩ := hwf (m0, j) (List.mem_cons_self _ _)
    simp only at hj
    subst hj
    obtain ⟨G, hG, hlook⟩ :=
      ih (extendAt g m0 rs) (fun mr hmr => hwf mr (List.mem_cons_of_mem _ hmr))
    refine ⟨G, hG, fun m => ?_⟩
    rw [hlook m, lookup_extendAt g m0 rs m]
    by_cases hm : m = m0
    · subst hm
      rw [if_pos rfl]
      rcases hg : g.lookup m with _ | v
      · simp [hg, flatMs_cons_eq, arrElems, List.any_cons]
      · simp [hg, flatMs_cons_eq, arrElems, List.append_assoc]
    · rw [if_neg hm]
      have hb : (m0 == m) = false := by
        simp only [beq_eq_false_iff_ne, ne_eq]
        exact fun h => hm h.symm
      rcases hg : g.lookup m with _ | v <;>
        simp only [hg, flatMs_cons_eq, hb, List.any_cons, Bool.false_or,
          if_false, List.nil_append] <;> simp

/-- A model dict with no entry for a model contributes no records. -/
theorem flatMs_eq_nil_of_not_any (ms : List (String × Json)) (m : String)
    (h : ms.any (fun mr => mr.1 == m) = false) : flatMs ms m = [] := by
  induction ms with
  | nil => rfl
  | cons p t ih =>
    obtain ⟨m0, j⟩ := p
    rw [List.any_cons, Bool.or_eq_false_iff] at h
    rw [flatMs_cons_eq, h.1, ih h.2]
    simp

/-- Unfolding `flattenEntries` over the first entry. -/
theorem flattenEntries_cons (e : String × Json) (t : List (String × Json))
    (m : String) :
    flattenEntries (e :: t) m =
      (if e.1 = "baseline" then []
       else
         match e.2 with
         | Json.obj ms => flatMs ms m
         | _ => []) ++ flattenEntries t m := by
  simp [flattenEntries]

/-- Unfolding `appearsEntries` over the first entry. -/
theorem appearsEntries_cons (e : String × Json) (t : List (String × Json))
    (m : String) :
    appearsEntries (e :: t) m =
      ((!(e.1 == "baseline")) &&
        (match e.2 with
         | Json.obj ms => ms.any (fun mr => mr.1 == m)
         | _ => false) ||
        appearsEntries t m) := by
  simp [appearsEntries]

/-- The outer grouping loop: on well-formed results it succeeds, and the
result maps each model to the accumulator's records followed by the
flattened contributions of all non-baseline entries, in entry order. -/
theorem groupEntries_spec :
    ∀ (results : List (String × Json)) (g : List (String × List Json)),
      wfEntries results →
      ∃ G, groupEntries results g = some G ∧
        ∀ m, G.lookup m =
          (match g.lookup m with
           | some v => some (v ++ flattenEntries results m)
           | none =>
             if appearsEntries results m then some (flattenEntries results m)
             else none) := by
  intro results
  induction results with
  | nil =>
    intro g _
    refine ⟨g, rfl, fun m => ?_⟩
    rcases hg : g.lookup m with _ | v <;>
      simp [hg, flattenEntries, appearsEntries]
  | cons e t ih =>
    intro g hwf
    obtain ⟨key, value⟩ := e
    have hwt : wfEntries t := fun x hx => hwf x (List.mem_cons_of_mem _ hx)
    by_cases hkey : key = "baseline"
    · subst hkey
      obtain ⟨G, hG, hlook⟩ := ih g hwt
      refine ⟨G, ?_, fun m => ?_⟩
      · simpa [groupEntries] using hG
      · rw [hlook m]
        rcases hg : g.lookup m with _ | v <;>
          simp [hg, flattenEntries_cons, appearsEntries_cons]
    · rcases hwf (key, value) (List.mem_cons_self _ _) with h | ⟨ms, hval, hmswf⟩
      · exact absurd h hkey
      · simp only at hval
        subst hval
        obtain ⟨G1, hG1, hlook1⟩ := groupModels_spec ms g hmswf
        obtain ⟨G, hG, hlook⟩ := ih G1 hwt
        refine ⟨G, ?_, fun m => ?_⟩
        · simp [groupEntries, hkey, hG1, hG]
        · rw [hlook m, hlook1 m]
          have hbe : (key == "baseline") = false := by simpa using hkey
          rcases hg : g.lookup m with _ | v
          · by_cases hany : ms.any (fun mr => mr.1 == m) = true
            · simp [hg, hany, flattenEntries_cons, appearsEntries_cons, hbe, hkey]
            · have hany' : ms.any (fun mr => mr.1 == m) = false :=
                Bool.eq_false_iff.mpr hany
              have hfnil : flatMs ms m = [] := flatMs_eq_nil_of_not_any ms m hany'
              simp [hg, hany', flattenEntries_cons, appearsEntries_cons, hbe,
                hkey, hfnil]
          · simp [hg, flattenEntries_cons, hkey, List.append_assoc]

/-- The collector always writes well-formed results entries. -/
theorem wf_resultsJson (rr : RunResult) : wfEntries (resultsJson rr) := by
  intro e he
  rcases List.mem_cons.mp he with rfl | hmem
  · exact Or.inl rfl
  · right
    obtain ⟨it, hit, rfl⟩ := List.mem_map.mp hmem
    refine ⟨it.2.map (fun mr => (mr.1, Json.arr (mr.2.map encodeTRec))), rfl, ?_⟩
    intro mr hmr
    obtain ⟨mr0, hmr0, rfl⟩ := List.mem_map.mp hmr
    exact ⟨mr0.2.map encodeTRec, rfl⟩

/-- The grouper's per-iteration contribution on encoded records is the
encoding of the per-iteration contribution on the original records. -/
theorem flatMs_map_encode (mrs : List (String × List TRec)) (m : String) :
    flatMs (mrs.map (fun mr => (mr.1, Json.arr (mr.2.map encodeTRec)))) m =
      ((mrs.filter (fun mr => mr.1 == m)).flatMap (fun mr => mr.2)).map
        encodeTRec := by
  induction mrs with
  | nil => rfl
  | cons mr t ih =>
    rw [List.map_cons, flatMs_cons_eq, List.filter_cons]
    by_cases hm : (mr.1 == m) = true
    · simp [hm, arrElems, ih]
    · have hm' : (mr.1 == m) = false := Bool.eq_false_iff.mpr hm
      simp [hm', arrElems, ih]

/-- Flattening the encoded iteration entries agrees with encoding the
spec-side flattened record sequence, provided no iteration key collides
with the baseline key. -/
theorem flattenEntries_map_iter
    (its : List (String × List (String × List TRec))) (m : String)
    (hk : ∀ p ∈ its, p.1 ≠ "baseline") :
    flattenEntries
        (its.map (fun it =>
          (it.1,
            Json.obj (it.2.map (fun mr => (mr.1, Json.arr (mr.2.map encodeTRec)))))))
        m =
      (its.flatMap (fun it =>
        (it.2.filter (fun mr => mr.1 == m)).flatMap (fun mr => mr.2))).map
        encodeTRec := by
  induction its with
  | nil => rfl
  | cons it t ih =>
    rw [List.map_cons, flattenEntries_cons,
      if_neg (hk it (List.mem_cons_self _ _)), List.flatMap_cons,
      List.map_append, ih (fun p hp => hk p (List.mem_cons_of_mem _ hp))]
    congr 1
    exact flatMs_map_encode it.2 m

/-- Model-key occurrence is preserved by encoding a model dict. -/
theorem any_fst_map_encode (mrs : List (String × List TRec)) (m : String) :
    ((mrs.map (fun mr => (mr.1, Json.arr (mr.2.map encodeTRec)))).any
        (fun mr => mr.1 == m)) =
      mrs.any (fun mr => mr.1 == m) := by
  induction mrs with
  | nil => rfl
  | cons mr t ih => simp [List.any_cons, ih]

/-- Model occurrence over the encoded iteration entries agrees with model
occurrence in the run, provided no iteration key collides with the
baseline key. -/
theorem appearsEntries_map_iter
    (its : List (String × List (String × List TRec))) (m : String)
    (hk : ∀ p ∈ its, p.1 ≠ "baseline") :
    appearsEntries
        (its.map (fun it =>
          (it.1,
            Json.obj (it.2.map (fun mr => (mr.1, Json.arr (mr.2.map encodeTRec)))))))
        m =
      its.any (fun it => it.2.any (fun mr => mr.1 == m)) := by
  induction its with
  | nil => rfl
  | cons it t ih =>
    rw [List.map_cons, appearsEntries_cons, List.any_cons,
      ih (fun p hp => hk p (List.mem_cons_of_mem _ hp))]
    have hb : (it.1 == "baseline") = false := by
      simpa using hk it (List.mem_cons_self _ _)
    congr 1
    rw [hb]
    simp only [Bool.not_false, Bool.true_and]
    exact any_fst_map_encode it.2 m

/-- Claim C3: serializing a run to the result-file JSON shape, loading it
back and grouping by model reproduces, per model, exactly the encoded
flattened record sequence — baseline ignored, iterations concatenated in
order, within-iteration order preserved — and the record encoding is
lossless. -/
theorem claim_C3_roundtrip (rr : RunResult)
    (hkeys : ∀ p ∈ rr.iterations, p.1 ≠ "baseline") :
    (∀ r : TRec, decodeTRec (encodeTRec r) = some r) ∧
    ∃ G, group_by_model (objEntries (load_results (some (dumpRunResult rr)))) =
        some G ∧
      ∀ m, G.lookup m =
        (if modelAppears rr m then
          some ((flattenModelRecords rr m).map encodeTRec)
         else none) := by
  constructor
  · intro r; rfl
  · have hload : objEntries (load_results (some (dumpRunResult rr))) =
        resultsJson rr := rfl
    rw [hload]
    obtain ⟨G, hG, hlook⟩ := groupEntries_spec (resultsJson rr) [] (wf_resultsJson rr)
    refine ⟨G, hG, fun m => ?_⟩
    rw [hlook m]
    have hflat : flattenEntries (resultsJson rr) m =
        (flattenModelRecords rr m).map encodeTRec := by
      show flattenEntries (("baseline", baselineJson rr.baseline) :: _) m = _
      rw [flattenEntries_cons, if_pos rfl, List.nil_append,
        flattenEntries_map_iter rr.iterations m hkeys]
      rfl
    have happ : appearsEntries (resultsJson rr) m = modelAppears rr m := by
      show appearsEntries (("baseline", baselineJson rr.baseline) :: _) m = _
      rw [appearsEntries_cons]
      have : (("baseline", baselineJson rr.baseline).1 == "baseline") = true := by
        simp
      rw [this]
      simp only [Bool.not_true, Bool.false_and, Bool.false_or]
      exact appearsEntries_map_iter rr.iterations m hkeys
    rw [hflat, happ]
    simp [List.lookup]

/-- Witness for claim C3 at a concrete one-iteration run. -/
theorem claim_C3_roundtrip_witness :
    (∀ r : TRec, decodeTRec (encodeTRec r) = some r) ∧
    ∃ G, group_by_model (objEntries (load_results (some (dumpRunResult wrun)))) =
        some G ∧
      ∀ m, G.lookup m =
        (if modelAppears wrun m then
          some ((flattenModelRecords wrun m).map encodeTRec)
         else none) :=
  claim_C3_roundtrip wrun (by decide)

/-- Claim C9: every result file that is missing or malformed (its load
collapses to the empty dict) or whose loaded results entry is empty/falsy
— absent key, empty object, or any other falsy value — is reported with
the skip message, its contribution treated as empty, and the per-file loop
processes all surrounding files exactly as it would have processed them
alone. -/
theorem claim_C9_bad_file_skipped (sqrtQ : ℚ → ℚ) (fmt : ℚ → String)
    (f : Option Json) (xs ys : List (Option Json))
    (hf : jsonFalsy (load_results f) = true) :
    load_results none = Json.obj [] ∧
    processFile sqrtQ fmt f = some Report.skipped ∧
    analyzerMain sqrtQ fmt (xs ++ f :: ys) =
      analyzerMain sqrtQ fmt xs ++
        some Report.skipped :: analyzerMain sqrtQ fmt ys := by
  have hskip : processFile sqrtQ fmt f = some Report.skipped := by
    simp [processFile, hf]
  refine ⟨rfl, hskip, ?_⟩
  induction xs with
  | nil => simp [analyzerMain, hskip]
  | cons a t ih => simp [analyzerMain, ih]

/-- Witness for claim C9 at a parseable file whose results entry is the
empty object, surrounded by malformed files. -/
theorem claim_C9_bad_file_skipped_witness :
    load_results none = Json.obj [] ∧
    processFile id (fun _ => "x") (some (Json.obj [("results", Json.obj [])])) =
      some Report.skipped ∧
    analyzerMain id (fun _ => "x")
        ([none] ++ some (Json.obj [("results", Json.obj [])]) :: [none]) =
      analyzerMain id (fun _ => "x") [none] ++
        some Report.skipped :: analyzerMain id (fun _ => "x") [none] :=
  claim_C9_bad_file_skipped id (fun _ => "x")
    (some (Json.obj [("results", Json.obj [])])) [none] [none] rfl

end SENG533
